import Mathlib

/-!
Verification of the `autodeskforge` OAuth2 provider package
(`src/providers/autodeskforge/autodeskforge.go`) against its specification.

The Go source is shallowly embedded: each Go function becomes a Lean
function, the single HTTP round-trip performed by `FetchUser` is made
explicit by passing in the result of the one `c.Do(req)` call as a value
of type `DoResult`, and the list of HTTP requests actually issued is
returned alongside the result so that "no network access" is a provable
statement.  Go's `(value, error)` returns become a pair of the value and
an `Option String` error (Go errors are rendered as their message
strings, exactly as `fmt.Errorf` builds them).
-/

/-- Session mirrors the provider's `Session` struct (fields `AuthURL`,
`AccessToken`, `RefreshToken`, `ExpiresAt`); `ExpiresAt` (a `time.Time`)
is modelled as an integer timestamp. -/
structure Session where
  AuthURL : String
  AccessToken : String
  RefreshToken : String
  ExpiresAt : Int
deriving Repr, DecidableEq

/-- User mirrors the subset of `goth.User` fields this package reads or
writes. -/
structure User where
  UserID : String
  NickName : String
  FirstName : String
  LastName : String
  Email : String
  Location : String
  AvatarURL : String
  AccessToken : String
  RefreshToken : String
  ExpiresAt : Int
  Provider : String
deriving Repr, DecidableEq

/-- Endpoint mirrors `oauth2.Endpoint` (the `AuthURL`/`TokenURL` pair). -/
structure Endpoint where
  AuthURL : String
  TokenURL : String
deriving Repr, DecidableEq

/-- Config mirrors the fields of `oauth2.Config` that `newConfig` sets. -/
structure Config where
  ClientID : String
  ClientSecret : String
  RedirectURL : String
  endpoint : Endpoint
  Scopes : List String
deriving Repr, DecidableEq

/-- Provider mirrors the provider struct: client key, secret, callback
URL, the rebindable provider name, and the derived OAuth2 config.  The
optional `HTTPClient` override does not affect any verified behaviour and
is omitted. -/
structure Provider where
  ClientKey : String
  Secret : String
  CallbackURL : String
  providerName : String
  config : Config
deriving Repr, DecidableEq

/-- The fixed authorization base endpoint (`baseAuthURL` constant). -/
def baseAuthURL : String :=
  "https://developer.api.autodesk.com/authentication/v1/authorize"

/-- The fixed token endpoint (`tokenURL` constant). -/
def tokenURL : String :=
  "https://developer.api.autodesk.com/authentication/v1/gettoken"

/-- The fixed user-profile endpoint (`endpointUser` constant). -/
def endpointUser : String :=
  "https://developer.api.autodesk.com/userprofile/v1/users/@me"

/-- newConfig mirrors `newConfig(provider, scopes)`.  The Go function
receives the provider pointer and reads its `ClientKey`, `Secret` and
`CallbackURL`; those three fields are passed here directly.  The
`fmt.Sprintf` building `authURL` becomes string concatenation, and the
`if len(scopes) > 0 { for ... append ... }` loop over `scopes` becomes a
fold starting from the empty list, exactly as in the source. -/
def newConfig (clientKey secret callbackURL : String) (scopes : List String) : Config :=
  let authURL := baseAuthURL ++ "?response_type=code&client_id=" ++ clientKey
      ++ "&redirect_uri=" ++ callbackURL ++ "&scope=data:read"
  let c : Config :=
    { ClientID := clientKey
      ClientSecret := secret
      RedirectURL := callbackURL
      endpoint := { AuthURL := authURL, TokenURL := tokenURL }
      Scopes := [] }
  if scopes.length > 0 then
    { c with Scopes := scopes.foldl (fun acc scope => acc ++ [scope]) c.Scopes }
  else
    c

/-- New mirrors `New(clientKey, secret, callbackURL, scopes...)`: builds
the provider with name "autodeskforge" and derives its config. -/
def New (clientKey secret callbackURL : String) (scopes : List String) : Provider :=
  { ClientKey := clientKey
    Secret := secret
    CallbackURL := callbackURL
    providerName := "autodeskforge"
    config := newConfig clientKey secret callbackURL scopes }

/-- Name mirrors `(p *Provider) Name()`. -/
def Provider.Name (p : Provider) : String := p.providerName

/-- SetName mirrors `(p *Provider) SetName(name)`. -/
def Provider.SetName (p : Provider) (name : String) : Provider :=
  { p with providerName := name }

/-- RefreshTokenAvailable mirrors `(p *Provider) RefreshTokenAvailable()`:
the body is `return true`. -/
def Provider.RefreshTokenAvailable (_p : Provider) : Bool := true

/-- AuthCodeURL models the external `oauth2.Config.AuthCodeURL(state)`
builder (excluded from the repository's scope): it writes
`c.Endpoint.AuthURL`, then `&` if that URL already contains `?` else `?`,
then the encoded query parameters.  The exact percent-encoding of the
parameters is external-library detail and is modelled as plain
concatenation of the parameters the library sets. -/
def Config.AuthCodeURL (c : Config) (state : String) : String :=
  let sep := if c.endpoint.AuthURL.toList.contains '?' then "&" else "?"
  c.endpoint.AuthURL ++ sep
    ++ "response_type=code&client_id=" ++ c.ClientID
    ++ "&redirect_uri=" ++ c.RedirectURL
    ++ "&scope=" ++ String.intercalate " " c.Scopes
    ++ "&state=" ++ state

/-- GothSession models a value of the interface type `goth.Session` as it
arrives at `FetchUser`: either a session of this provider's own
`*Session` type, or a session of some other provider's type (carried
opaquely).  The Go type assertion `session.(*Session)` succeeds on the
former and panics on the latter. -/
inductive GothSession where
  | forge : Session → GothSession
  | other : String → GothSession
deriving Repr, DecidableEq

/-- HttpRequest records one HTTP request as `FetchUser` builds it:
method, URL and headers. -/
structure HttpRequest where
  method : String
  url : String
  headers : List (String × String)
deriving Repr, DecidableEq

/-- RawProfile mirrors the anonymous struct `u` that `FetchUser` decodes
the profile JSON into: `userId`, `userName`, `firstName`, `lastName`,
`countryCode`, `emailId`, `statusMessage`, `profileImages.sizeX120`. -/
structure RawProfile where
  userId : String
  userName : String
  firstName : String
  lastName : String
  countryCode : String
  emailId : String
  statusMessage : String
  profileImagesSizeX120 : String
deriving Repr, DecidableEq

/-- ReadResult models what `ioutil.ReadAll(response.Body)` followed by
JSON decoding yields: a read error, a decode error, or the decoded
profile. -/
inductive ReadResult where
  | readError : String → ReadResult
  | decodeError : String → ReadResult
  | decoded : RawProfile → ReadResult
deriving Repr, DecidableEq

/-- DoResult models the outcome of the single `c.Do(req)` call inside
`FetchUser`: a transport error, or a response with a status code and a
body (whose read/decode outcome is part of the value). -/
inductive DoResult where
  | transportError : String → DoResult
  | response : Nat → ReadResult → DoResult
deriving Repr, DecidableEq

/-- FetchOutcome is the observable result of a `FetchUser` call: either
the Go runtime panics (failed type assertion), or the function returns a
`goth.User` together with an optional error message. -/
inductive FetchOutcome where
  | panicked : String → FetchOutcome
  | returned : User → Option String → FetchOutcome
deriving Repr, DecidableEq

/-- The request `FetchUser` constructs: `GET endpointUser` with the
`Authorization: Bearer <token>` header. -/
def userRequest (accessToken : String) : HttpRequest :=
  { method := "GET"
    url := endpointUser
    headers := [("Authorization", "Bearer " ++ accessToken)] }

/-- FetchUser mirrors `(p *Provider) FetchUser(session)`.  The value of
the one `c.Do(req)` call is the `d : DoResult` argument; the second
component of the result is the list of HTTP requests actually issued
(empty when the function returns before `c.Do`).  `http.NewRequest("GET",
endpointUser, nil)` cannot fail on this constant well-formed URL, so that
dead error branch has no counterpart here.  The trailing `return user,
err` returns the `err` left by the decode step, which is `nil` there. -/
def Provider.FetchUser (p : Provider) (session : GothSession) (d : DoResult) :
    FetchOutcome × List HttpRequest :=
  match session with
  | GothSession.other _ =>
    (FetchOutcome.panicked "interface conversion: goth.Session is not *autodeskforge.Session", [])
  | GothSession.forge sess =>
    let user : User :=
      { UserID := "", NickName := "", FirstName := "", LastName := ""
        Email := "", Location := "", AvatarURL := ""
        AccessToken := sess.AccessToken
        Provider := p.Name
        RefreshToken := sess.RefreshToken
        ExpiresAt := sess.ExpiresAt }
    if user.AccessToken = "" then
      (FetchOutcome.returned user
        (some (p.providerName ++ " cannot get user information without accessToken")), [])
    else
      let req := userRequest sess.AccessToken
      match d with
      | DoResult.transportError e =>
        (FetchOutcome.returned user (some e), [req])
      | DoResult.response statusCode body =>
        if statusCode ≠ 200 then
          (FetchOutcome.returned user
            (some (p.providerName ++ " responded with a " ++ toString statusCode
              ++ " trying to fetch user information")), [req])
        else
          match body with
          | ReadResult.readError e => (FetchOutcome.returned user (some e), [req])
          | ReadResult.decodeError e => (FetchOutcome.returned user (some e), [req])
          | ReadResult.decoded u =>
            (FetchOutcome.returned
              { user with
                NickName := u.userName
                AvatarURL := u.profileImagesSizeX120
                FirstName := u.firstName
                Email := u.emailId
                Location := u.countryCode
                LastName := u.lastName
                UserID := u.userId }
              none, [req])

/-- BeginAuth mirrors `(p *Provider) BeginAuth(state)`: it returns a
fresh `Session` whose `AuthURL` is `p.config.AuthCodeURL(state)` (the
remaining fields keep their Go zero values) and a nil error.  The body
performs no I/O, so the issued-request list is empty. -/
def Provider.BeginAuth (p : Provider) (state : String) :
    (Session × Option String) × List HttpRequest :=
  (({ AuthURL := p.config.AuthCodeURL state
      AccessToken := ""
      RefreshToken := ""
      ExpiresAt := 0 }, none), [])

/-- skipWs drops leading JSON whitespace. -/
def skipWs : List Char → List Char
  | [] => []
  | c :: cs => if c = ' ' ∨ c = '\t' ∨ c = '\n' ∨ c = '\r' then skipWs cs else c :: cs

/-- unescape maps the character after a backslash in a JSON string
literal to the character it denotes (the common single-character
escapes; `\"` and `\\` fall through to the character itself). -/
def unescape (c : Char) : Char :=
  if c = 'n' then '\n' else if c = 't' then '\t' else if c = 'r' then '\r' else c

/-- stringBody consumes the body of a JSON string literal (the opening
quote already consumed), returning the decoded characters and the rest of
the input after the closing quote. -/
def stringBody : List Char → Option (List Char × List Char)
  | [] => none
  | c :: cs =>
    if c = '"' then some ([], cs)
    else if c = '\\' then
      match cs with
      | [] => none
      | e :: cs2 =>
        match stringBody cs2 with
        | some (s, r) => some (unescape e :: s, r)
        | none => none
    else
      match stringBody cs with
      | some (s, r) => some (c :: s, r)
      | none => none

/-- charDigit reads one decimal digit. -/
def charDigit (c : Char) : Option Nat :=
  if '0' ≤ c ∧ c ≤ '9' then some (c.toNat - '0'.toNat) else none

/-- parseNatAux folds decimal digits into a number, rejecting any other
character. -/
def parseNatAux : List Char → Nat → Option Nat
  | [], acc => some acc
  | c :: cs, acc =>
    match charDigit c with
    | some d => parseNatAux cs (acc * 10 + d)
    | none => none

/-- parseIntString reads an optionally negated decimal integer; anything
else is rejected. -/
def parseIntString (s : String) : Option Int :=
  match s.toList with
  | [] => none
  | '-' :: cs =>
    match cs with
    | [] => none
    | _ => (parseNatAux cs 0).map (fun n => -(n : Int))
  | cs => (parseNatAux cs 0).map (fun n => (n : Int))

/-- setField stores a parsed string member into the session under
construction.  The three string-typed fields take the value verbatim;
the `ExpiresAt` key (a timestamp, an integer in this model, persisted as
a JSON string holding its decimal representation) must parse as an
integer — a value that is no valid timestamp representation is a parse
error, exactly as an invalid time string is for the real decoder.  Other
keys are ignored, as the standard JSON decoder ignores unknown fields. -/
def setField (sess : Session) (key val : String) : Option Session :=
  if key = "AuthURL" then some { sess with AuthURL := val }
  else if key = "AccessToken" then some { sess with AccessToken := val }
  else if key = "RefreshToken" then some { sess with RefreshToken := val }
  else if key = "ExpiresAt" then
    match parseIntString val with
    | some n => some { sess with ExpiresAt := n }
    | none => none
  else some sess

/-- parseMembers parses the members of a flat JSON object with
string-valued members, starting right after `{` or `,`, accumulating
session fields; it returns the session and the input after the closing
`}`.  The fuel argument bounds recursion by the input length. -/
def parseMembers : Nat → List Char → Session → Option (Session × List Char)
  | 0, _, _ => none
  | fuel + 1, input, acc =>
    match skipWs input with
    | [] => none
    | c :: rest =>
      if c = '"' then
        match stringBody rest with
        | none => none
        | some (key, r1) =>
          match skipWs r1 with
          | [] => none
          | c2 :: r2 =>
            if c2 = ':' then
              match skipWs r2 with
              | [] => none
              | c3 :: r3 =>
                if c3 = '"' then
                  match stringBody r3 with
                  | none => none
                  | some (val, r4) =>
                    match setField acc (String.mk key) (String.mk val) with
                    | none => none
                    | some acc2 =>
                      match skipWs r4 with
                      | [] => none
                      | c4 :: r5 =>
                        if c4 = ',' then parseMembers fuel r5 acc2
                        else if c4 = '}' then some (acc2, r5)
                        else none
                else none
            else none
      else none

/-- Modelled from the spec: `UnmarshalSession(text) → (Session, error)`
is defined in this repository's session file, which is not under `src/`;
the spec states it "deserializes a Session from its persisted text form;
fails with a parse error on malformed input", and gives the persisted
form as a JSON object with keys `AuthURL, AccessToken, RefreshToken,
ExpiresAt`.  This model parses a flat JSON object with string-valued
members (the persisted form serializes every field as a JSON string:
the three string fields verbatim, the `ExpiresAt` timestamp as its
decimal representation), stores the recognised keys into a zero-valued
session, and reports a parse error (as `Except.error`) on any other
input.  `WellFormedSessionText` below gives the grammar of this
persisted form independently of the parser, and the language the parser
accepts is proved to be exactly that grammar. -/
def Provider.UnmarshalSession (_p : Provider) (text : String) : Except String Session :=
  match skipWs text.toList with
  | [] => Except.error "invalid character looking for beginning of value"
  | c :: rest =>
    if c = '{' then
      match skipWs rest with
      | [] => Except.error "unexpected end of JSON input"
      | c2 :: r1 =>
        if c2 = '}' then
          if skipWs r1 = [] then
            Except.ok { AuthURL := "", AccessToken := "", RefreshToken := "", ExpiresAt := 0 }
          else Except.error "invalid character after top-level value"
        else
          match parseMembers (rest.length + 1) rest
              { AuthURL := "", AccessToken := "", RefreshToken := "", ExpiresAt := 0 } with
          | some (sess, rem) =>
            if skipWs rem = [] then Except.ok sess
            else Except.error "invalid character after top-level value"
          | none => Except.error "unexpected end of JSON input"
    else Except.error "invalid character looking for beginning of value"

/-- Ws a b holds when a is b preceded by (some) JSON whitespace; this is
the grammar-side counterpart of whitespace skipping. -/
inductive Ws : List Char → List Char → Prop
  | refl (s : List Char) : Ws s s
  | skip {c : Char} {s r : List Char} :
      (c = ' ' ∨ c = '\t' ∨ c = '\n' ∨ c = '\r') → Ws s r → Ws (c :: s) r

/-- StrBody a content rest holds when a spells the body of a JSON string
literal — decoded characters, a closing quote — followed by rest. -/
inductive StrBody : List Char → List Char → List Char → Prop
  | close (r : List Char) : StrBody ('"' :: r) [] r
  | esc {e : Char} {s content r : List Char} :
      StrBody s content r → StrBody ('\\' :: e :: s) (unescape e :: content) r
  | chr {c : Char} {s content r : List Char} :
      c ≠ '"' → c ≠ '\\' → StrBody s content r → StrBody (c :: s) (c :: content) r

/-- GoodMember constrains a member of the persisted session object: a
value stored under the `ExpiresAt` key must be a decimal timestamp. -/
def GoodMember (key val : String) : Prop :=
  key = "ExpiresAt" → (parseIntString val).isSome = true

/-- Members input rest holds when input spells one or more members of a
flat JSON object with string-literal keys and values (each member
satisfying `GoodMember`), followed by the closing brace, leaving rest. -/
inductive Members : List Char → List Char → Prop
  | last {input r1 key r2 r3 r4 val r5 r6 : List Char} :
      Ws input ('"' :: r1) → StrBody r1 key r2 →
      Ws r2 (':' :: r3) → Ws r3 ('"' :: r4) →
      StrBody r4 val r5 → GoodMember (String.mk key) (String.mk val) →
      Ws r5 ('}' :: r6) → Members input r6
  | more {input r1 key r2 r3 r4 val r5 r6 r7 : List Char} :
      Ws input ('"' :: r1) → StrBody r1 key r2 →
      Ws r2 (':' :: r3) → Ws r3 ('"' :: r4) →
      StrBody r4 val r5 → GoodMember (String.mk key) (String.mk val) →
      Ws r5 (',' :: r6) → Members r6 r7 → Members input r7

/-- WellFormedSessionText is the grammar of the persisted session form,
stated independently of the parser: optional whitespace, a brace-
delimited flat JSON object — empty, or a comma-separated list of
string-literal members satisfying `GoodMember` — then optional
whitespace to the end of the text. -/
def WellFormedSessionText (s : String) : Prop :=
  ∃ rest, Ws s.toList ('{' :: rest) ∧
    ((∃ r2, Ws rest ('}' :: r2) ∧ Ws r2 []) ∨
     (∃ rem, Members rest rem ∧ Ws rem []))

/-- headNotWs b says b does not begin with JSON whitespace, so a
whitespace-skipping derivation ending at b is maximal. -/
def headNotWs : List Char → Prop
  | [] => True
  | c :: _ => ¬(c = ' ' ∨ c = '\t' ∨ c = '\n' ∨ c = '\r')

/-- Whitespace skipping realises a Ws derivation. -/
theorem ws_skipWs (s : List Char) : Ws s (skipWs s) := by
  induction s with
  | nil => exact Ws.refl []
  | cons c cs ih =>
    by_cases h : c = ' ' ∨ c = '\t' ∨ c = '\n' ∨ c = '\r'
    · rw [skipWs, if_pos h]
      exact Ws.skip h ih
    · rw [skipWs, if_neg h]
      exact Ws.refl _

/-- A Ws derivation whose target does not begin with whitespace is
computed by skipWs. -/
theorem skipWs_eq_of_ws {a b : List Char} (h : Ws a b) (hb : headNotWs b) :
    skipWs a = b := by
  induction h with
  | refl s =>
    cases s with
    | nil => rfl
    | cons c cs =>
      simp only [headNotWs] at hb
      rw [skipWs, if_neg hb]
  | skip hc _ ih =>
    rw [skipWs, if_pos hc]
    exact ih hb

/-- Ws only removes characters. -/
theorem ws_length {a b : List Char} (h : Ws a b) : b.length ≤ a.length := by
  induction h with
  | refl s => exact Nat.le_refl _
  | skip _ _ ih => exact Nat.le_succ_of_le ih

/-- StrBody consumes at least the closing quote. -/
theorem strBody_length {s content r : List Char} (h : StrBody s content r) :
    r.length < s.length := by
  induction h with
  | close r => simp
  | esc _ ih => simp only [List.length_cons]; omega
  | chr _ _ _ ih => simp only [List.length_cons]; omega

/-- One evaluation step of stringBody on a non-empty input. -/
theorem stringBody_cons (c : Char) (cs : List Char) :
    stringBody (c :: cs) =
      if c = '"' then some ([], cs)
      else if c = '\\' then
        match cs with
        | [] => none
        | e :: cs2 =>
          match stringBody cs2 with
          | some (s, r) => some (unescape e :: s, r)
          | none => none
      else
        match stringBody cs with
        | some (s, r) => some (c :: s, r)
        | none => none := by
  rw [stringBody.eq_def]

/-- A successful stringBody run realises a StrBody derivation. -/
theorem stringBody_sound_aux :
    ∀ (n : Nat) (s : List Char), s.length ≤ n →
      ∀ content rest, stringBody s = some (content, rest) → StrBody s content rest := by
  intro n
  induction n with
  | zero =>
    intro s hs content rest h
    cases s with
    | nil => simp [stringBody] at h
    | cons c cs => simp at hs
  | succ n ih =>
    intro s hs content rest h
    cases s with
    | nil => simp [stringBody] at h
    | cons c cs =>
      rw [stringBody_cons] at h
      by_cases hq : c = '"'
      · rw [if_pos hq] at h
        subst hq
        simp only [Option.some.injEq, Prod.mk.injEq] at h
        obtain ⟨h3, h4⟩ := h
        subst h3; subst h4
        exact StrBody.close cs
      · by_cases hb : c = '\\'
        · rw [if_neg hq, if_pos hb] at h
          subst hb
          cases cs with
          | nil => simp at h
          | cons e cs2 =>
            dsimp only at h
            cases h2 : stringBody cs2 with
            | none => rw [h2] at h; simp at h
            | some pr =>
              obtain ⟨sb, rb⟩ := pr
              rw [h2] at h
              simp only [Option.some.injEq, Prod.mk.injEq] at h
              obtain ⟨h3, h4⟩ := h
              subst h3; subst h4
              have hlen : cs2.length ≤ n := by simp at hs; omega
              exact StrBody.esc (ih cs2 hlen sb rb h2)
        · rw [if_neg hq, if_neg hb] at h
          cases h2 : stringBody cs with
          | none => rw [h2] at h; simp at h
          | some pr =>
            obtain ⟨sb, rb⟩ := pr
            rw [h2] at h
            simp only [Option.some.injEq, Prod.mk.injEq] at h
            obtain ⟨h3, h4⟩ := h
            subst h3; subst h4
            have hlen : cs.length ≤ n := by simp at hs; omega
            exact StrBody.chr hq hb (ih cs hlen sb rb h2)

/-- A successful stringBody run realises a StrBody derivation. -/
theorem stringBody_sound {s content rest : List Char}
    (h : stringBody s = some (content, rest)) : StrBody s content rest :=
  stringBody_sound_aux s.length s (Nat.le_refl _) content rest h

/-- A StrBody derivation is computed by stringBody. -/
theorem stringBody_complete {s content rest : List Char}
    (h : StrBody s content rest) : stringBody s = some (content, rest) := by
  induction h with
  | close r => rw [stringBody_cons, if_pos rfl]
  | esc _ ih =>
    rw [stringBody_cons, if_neg (by decide), if_pos rfl]
    dsimp only
    rw [ih]
  | chr hq hb _ ih =>
    rw [stringBody_cons, if_neg hq, if_neg hb, ih]

/-- A cons whose head is not whitespace satisfies headNotWs. -/
theorem headNotWs_cons {c : Char} {l : List Char}
    (h : ¬(c = ' ' ∨ c = '\t' ∨ c = '\n' ∨ c = '\r')) : headNotWs (c :: l) := h

/-- A successful setField run satisfies the member constraint. -/
theorem setField_good {acc : Session} {key val : String} {acc2 : Session}
    (h : setField acc key val = some acc2) : GoodMember key val := by
  intro hk
  subst hk
  rw [setField, if_neg (by decide), if_neg (by decide), if_neg (by decide), if_pos rfl] at h
  cases h2 : parseIntString val with
  | none => rw [h2] at h; simp at h
  | some n => rfl

/-- setField succeeds on every member satisfying the constraint. -/
theorem setField_total {key val : String} (acc : Session) (h : GoodMember key val) :
    ∃ acc2, setField acc key val = some acc2 := by
  by_cases h1 : key = "AuthURL"
  · exact ⟨_, by rw [setField, if_pos h1]⟩
  by_cases h2 : key = "AccessToken"
  · exact ⟨_, by rw [setField, if_neg h1, if_pos h2]⟩
  by_cases h3 : key = "RefreshToken"
  · exact ⟨_, by rw [setField, if_neg h1, if_neg h2, if_pos h3]⟩
  by_cases h4 : key = "ExpiresAt"
  · have h5 := h h4
    cases h6 : parseIntString val with
    | none => rw [h6] at h5; simp at h5
    | some n =>
      exact ⟨_, by rw [setField, if_neg h1, if_neg h2, if_neg h3, if_pos h4, h6]⟩
  · exact ⟨_, by rw [setField, if_neg h1, if_neg h2, if_neg h3, if_neg h4]⟩

/-- A successful parseMembers run realises a Members derivation. -/
theorem parseMembers_sound :
    ∀ (fuel : Nat) (input : List Char) (acc sess : Session) (rem : List Char),
      parseMembers fuel input acc = some (sess, rem) → Members input rem := by
  intro fuel
  induction fuel with
  | zero => intro input acc sess rem h; simp [parseMembers] at h
  | succ n ih =>
    intro input acc sess rem h
    rw [parseMembers.eq_def] at h
    dsimp only at h
    cases hA : skipWs input with
    | nil => rw [hA] at h; simp at h
    | cons c rest =>
      rw [hA] at h
      dsimp only at h
      by_cases hc : c = '"'
      · rw [if_pos hc] at h
        subst hc
        cases hB : stringBody rest with
        | none => rw [hB] at h; simp at h
        | some pr =>
          obtain ⟨key, r1⟩ := pr
          rw [hB] at h
          dsimp only at h
          cases hC : skipWs r1 with
          | nil => rw [hC] at h; simp at h
          | cons c2 r2 =>
            rw [hC] at h
            dsimp only at h
            by_cases hc2 : c2 = ':'
            · rw [if_pos hc2] at h
              subst hc2
              cases hD : skipWs r2 with
              | nil => rw [hD] at h; simp at h
              | cons c3 r3 =>
                rw [hD] at h
                dsimp only at h
                by_cases hc3 : c3 = '"'
                · rw [if_pos hc3] at h
                  subst hc3
                  cases hE : stringBody r3 with
                  | none => rw [hE] at h; simp at h
                  | some pr2 =>
                    obtain ⟨val, r4⟩ := pr2
                    rw [hE] at h
                    dsimp only at h
                    cases hF : setField acc (String.mk key) (String.mk val) with
                    | none => rw [hF] at h; simp at h
                    | some acc2 =>
                      rw [hF] at h
                      dsimp only at h
                      cases hG : skipWs r4 with
                      | nil => rw [hG] at h; simp at h
                      | cons c4 r5 =>
                        rw [hG] at h
                        dsimp only at h
                        by_cases hc4 : c4 = ','
                        · rw [if_pos hc4] at h
                          subst hc4
                          exact Members.more (hA ▸ ws_skipWs input) (stringBody_sound hB)
                            (hC ▸ ws_skipWs r1) (hD ▸ ws_skipWs r2) (stringBody_sound hE)
                            (setField_good hF) (hG ▸ ws_skipWs r4)
                            (ih r5 acc2 sess rem h)
                        · rw [if_neg hc4] at h
                          by_cases hc5 : c4 = '}'
                          · rw [if_pos hc5] at h
                            subst hc5
                            simp only [Option.some.injEq, Prod.mk.injEq] at h
                            obtain ⟨h1, h2⟩ := h
                            subst h2
                            exact Members.last (hA ▸ ws_skipWs input) (stringBody_sound hB)
                              (hC ▸ ws_skipWs r1) (hD ▸ ws_skipWs r2) (stringBody_sound hE)
                              (setField_good hF) (hG ▸ ws_skipWs r4)
                          · rw [if_neg hc5] at h; simp at h
                · rw [if_neg hc3] at h; simp at h
            · rw [if_neg hc2] at h; simp at h
      · rw [if_neg hc] at h; simp at h

/-- A Members derivation is computed by parseMembers, given fuel larger
than the input length. -/
theorem parseMembers_complete :
    ∀ {input rem : List Char}, Members input rem →
      ∀ (acc : Session) (fuel : Nat), input.length < fuel →
        ∃ sess, parseMembers fuel input acc = some (sess, rem) := by
  intro input rem h
  induction h with
  | last hws1 hsb1 hws2 hws3 hsb2 hgood hws4 =>
    intro acc fuel hfuel
    cases fuel with
    | zero => omega
    | succ n =>
      obtain ⟨acc2, hsf⟩ := setField_total acc hgood
      refine ⟨acc2, ?_⟩
      rw [parseMembers.eq_def]
      dsimp only
      rw [skipWs_eq_of_ws hws1 (headNotWs_cons (by decide))]
      dsimp only
      rw [if_pos rfl, stringBody_complete hsb1]
      dsimp only
      rw [skipWs_eq_of_ws hws2 (headNotWs_cons (by decide))]
      dsimp only
      rw [if_pos rfl]
      rw [skipWs_eq_of_ws hws3 (headNotWs_cons (by decide))]
      dsimp only
      rw [if_pos rfl, stringBody_complete hsb2]
      dsimp only
      rw [hsf]
      dsimp only
      rw [skipWs_eq_of_ws hws4 (headNotWs_cons (by decide))]
      dsimp only
      rw [if_neg (by decide), if_pos rfl]
  | more hws1 hsb1 hws2 hws3 hsb2 hgood hws4 _ ih =>
    intro acc fuel hfuel
    cases fuel with
    | zero => omega
    | succ n =>
      obtain ⟨acc2, hsf⟩ := setField_total acc hgood
      have l1 := ws_length hws1
      have l2 := strBody_length hsb1
      have l3 := ws_length hws2
      have l4 := ws_length hws3
      have l5 := strBody_length hsb2
      have l6 := ws_length hws4
      obtain ⟨sess, hrecres⟩ := ih acc2 n (by
        simp only [List.length_cons] at l1 l3 l4 l6
        omega)
      refine ⟨sess, ?_⟩
      rw [parseMembers.eq_def]
      dsimp only
      rw [skipWs_eq_of_ws hws1 (headNotWs_cons (by decide))]
      dsimp only
      rw [if_pos rfl, stringBody_complete hsb1]
      dsimp only
      rw [skipWs_eq_of_ws hws2 (headNotWs_cons (by decide))]
      dsimp only
      rw [if_pos rfl]
      rw [skipWs_eq_of_ws hws3 (headNotWs_cons (by decide))]
      dsimp only
      rw [if_pos rfl, stringBody_complete hsb2]
      dsimp only
      rw [hsf]
      dsimp only
      rw [skipWs_eq_of_ws hws4 (headNotWs_cons (by decide))]
      dsimp only
      rw [if_pos rfl]
      exact hrecres

/-- The language UnmarshalSession accepts is exactly the grammar of the
persisted session form. -/
theorem unmarshal_ok_iff (p : Provider) (s : String) :
    (∃ sess, p.UnmarshalSession s = Except.ok sess) ↔ WellFormedSessionText s := by
  constructor
  · rintro ⟨sess, h⟩
    rw [Provider.UnmarshalSession] at h
    cases hA : skipWs s.toList with
    | nil => rw [hA] at h; simp at h
    | cons c rest =>
      rw [hA] at h
      dsimp only at h
      by_cases hc : c = '{'
      · rw [if_pos hc] at h
        subst hc
        cases hB : skipWs rest with
        | nil => rw [hB] at h; simp at h
        | cons c2 r1 =>
          rw [hB] at h
          dsimp only at h
          by_cases hc2 : c2 = '}'
          · rw [if_pos hc2] at h
            subst hc2
            by_cases hC : skipWs r1 = []
            · exact ⟨rest, hA ▸ ws_skipWs _,
                Or.inl ⟨r1, hB ▸ ws_skipWs _, hC ▸ ws_skipWs _⟩⟩
            · rw [if_neg hC] at h; simp at h
          · rw [if_neg hc2] at h
            cases hD : parseMembers (rest.length + 1) rest
                { AuthURL := "", AccessToken := "", RefreshToken := "", ExpiresAt := 0 } with
            | none => rw [hD] at h; simp at h
            | some pr =>
              obtain ⟨sess2, rem⟩ := pr
              rw [hD] at h
              dsimp only at h
              by_cases hE : skipWs rem = []
              · exact ⟨rest, hA ▸ ws_skipWs _,
                  Or.inr ⟨rem, parseMembers_sound _ _ _ _ _ hD, hE ▸ ws_skipWs _⟩⟩
              · rw [if_neg hE] at h; simp at h
      · rw [if_neg hc] at h; simp at h
  · rintro ⟨rest, hws, hcase⟩
    rw [Provider.UnmarshalSession]
    rw [skipWs_eq_of_ws hws (headNotWs_cons (by decide))]
    dsimp only
    rw [if_pos rfl]
    rcases hcase with ⟨r2, hw2, hw3⟩ | ⟨rem, hmem, hwrem⟩
    · rw [skipWs_eq_of_ws hw2 (headNotWs_cons (by decide))]
      dsimp only
      rw [if_pos rfl, if_pos (skipWs_eq_of_ws hw3 trivial)]
      exact ⟨_, rfl⟩
    · have hq : ∃ r1, skipWs rest = '"' :: r1 := by
        rcases hmem with ⟨hws1, -, -, -, -, -, -⟩ | ⟨hws1, -, -, -, -, -, -, -⟩ <;>
          exact ⟨_, skipWs_eq_of_ws hws1 (headNotWs_cons (by decide))⟩
      obtain ⟨r1, hq⟩ := hq
      rw [hq]
      dsimp only
      rw [if_neg (by decide)]
      obtain ⟨sess, hp⟩ := parseMembers_complete hmem
        { AuthURL := "", AccessToken := "", RefreshToken := "", ExpiresAt := 0 }
        (rest.length + 1) (Nat.lt_succ_self _)
      rw [hp]
      dsimp only
      rw [if_pos (skipWs_eq_of_ws hwrem trivial)]
      exact ⟨sess, rfl⟩

/-- Folding list-push over a list appends it to the accumulator (the
shape of the `for _, scope := range scopes { append }` loop). -/
theorem foldl_push (l acc : List String) :
    l.foldl (fun a s => a ++ [s]) acc = acc ++ l := by
  induction l generalizing acc with
  | nil => simp
  | cons x xs ih => simp [List.foldl_cons, ih]

/-- C1: for every provider and every session whose access token is the
empty string, `FetchUser` returns the base user together with the
provider-specific error message and issues no HTTP request, whatever the
transport would have answered (determinism and absence of side effects
are the function's totality plus the empty request list). -/
theorem fetchUser_empty_token (p : Provider) (sess : Session) (d : DoResult)
    (h : sess.AccessToken = "") :
    p.FetchUser (GothSession.forge sess) d =
      (FetchOutcome.returned
        { UserID := "", NickName := "", FirstName := "", LastName := ""
          Email := "", Location := "", AvatarURL := ""
          AccessToken := sess.AccessToken, RefreshToken := sess.RefreshToken
          ExpiresAt := sess.ExpiresAt, Provider := p.providerName }
        (some (p.providerName ++ " cannot get user information without accessToken")), []) := by
  simp [Provider.FetchUser, Provider.Name, h]

/-- Witness for C1 at a concrete provider, session and transport. -/
theorem fetchUser_empty_token_witness :
    (Session.mk "u" "" "" 0).AccessToken = "" ∧
    (New "ck" "sec" "/cb" []).FetchUser (GothSession.forge (Session.mk "u" "" "" 0))
        (DoResult.transportError "refused") =
      (FetchOutcome.returned
        { UserID := "", NickName := "", FirstName := "", LastName := ""
          Email := "", Location := "", AvatarURL := ""
          AccessToken := "", RefreshToken := "", ExpiresAt := 0
          Provider := "autodeskforge" }
        (some "autodeskforge cannot get user information without accessToken"), []) :=
  ⟨rfl, fetchUser_empty_token (New "ck" "sec" "/cb" []) (Session.mk "u" "" "" 0)
    (DoResult.transportError "refused") rfl⟩

/-- C2: for every session with a non-empty access token, on a 200
response whose body decodes to profile `u`, `FetchUser` returns no error
and a user with `userId→UserID`, `userName→NickName`,
`firstName`/`lastName` passed through, `emailId→Email`,
`countryCode→Location`, `profileImages.sizeX120→AvatarURL`, and the
session's token, refresh token and expiry copied unchanged. -/
theorem fetchUser_success_mapping (p : Provider) (sess : Session) (u : RawProfile)
    (h : sess.AccessToken ≠ "") :
    p.FetchUser (GothSession.forge sess)
        (DoResult.response 200 (ReadResult.decoded u)) =
      (FetchOutcome.returned
        { UserID := u.userId, NickName := u.userName
          FirstName := u.firstName, LastName := u.lastName
          Email := u.emailId, Location := u.countryCode
          AvatarURL := u.profileImagesSizeX120
          AccessToken := sess.AccessToken, RefreshToken := sess.RefreshToken
          ExpiresAt := sess.ExpiresAt, Provider := p.providerName }
        none, [userRequest sess.AccessToken]) := by
  simp [Provider.FetchUser, Provider.Name, h]

/-- Witness for C2 at a concrete provider, session and profile. -/
theorem fetchUser_success_mapping_witness :
    (Session.mk "u" "tok" "ref" 7).AccessToken ≠ "" ∧
    (New "ck" "sec" "/cb" []).FetchUser
        (GothSession.forge (Session.mk "u" "tok" "ref" 7))
        (DoResult.response 200 (ReadResult.decoded
          (RawProfile.mk "id1" "nick" "Ada" "Lovelace" "GB" "a@b.c" "hi" "http://img/120"))) =
      (FetchOutcome.returned
        { UserID := "id1", NickName := "nick", FirstName := "Ada", LastName := "Lovelace"
          Email := "a@b.c", Location := "GB", AvatarURL := "http://img/120"
          AccessToken := "tok", RefreshToken := "ref", ExpiresAt := 7
          Provider := "autodeskforge" }
        none, [userRequest "tok"]) :=
  ⟨by decide,
   fetchUser_success_mapping (New "ck" "sec" "/cb" []) (Session.mk "u" "tok" "ref" 7)
     (RawProfile.mk "id1" "nick" "Ada" "Lovelace" "GB" "a@b.c" "hi" "http://img/120")
     (by decide)⟩

/-- C3: the constructed configuration's authorization URL is the fixed
base endpoint followed by
`?response_type=code&client_id=<clientKey>&redirect_uri=<callbackURL>&scope=data:read`,
for every scopes argument (hence independent of it), while the
configuration's scope list equals the scopes argument in order. -/
theorem newConfig_authURL_and_scopes (ck sec cb : String) (scopes : List String) :
    (New ck sec cb scopes).config.endpoint.AuthURL =
      baseAuthURL ++ "?response_type=code&client_id=" ++ ck
        ++ "&redirect_uri=" ++ cb ++ "&scope=data:read" ∧
    (New ck sec cb scopes).config.Scopes = scopes := by
  unfold New newConfig
  refine ⟨by dsimp only; split <;> rfl, ?_⟩
  dsimp only
  split
  · simp [foldl_push]
  · rename_i h
    simp only [gt_iff_lt, not_lt, Nat.le_zero, List.length_eq_zero] at h
    simp [h]

/-- C4: for every session with a non-empty access token, a response with
any status other than 200 makes `FetchUser` return the base user and an
error message that contains the numeric status code (the message
decomposes around `toString status`); exactly one request was issued. -/
theorem fetchUser_non200 (p : Provider) (sess : Session) (status : Nat) (rr : ReadResult)
    (h : sess.AccessToken ≠ "") (hs : status ≠ 200) :
    p.FetchUser (GothSession.forge sess) (DoResult.response status rr) =
      (FetchOutcome.returned
        { UserID := "", NickName := "", FirstName := "", LastName := ""
          Email := "", Location := "", AvatarURL := ""
          AccessToken := sess.AccessToken, RefreshToken := sess.RefreshToken
          ExpiresAt := sess.ExpiresAt, Provider := p.providerName }
        (some (p.providerName ++ " responded with a " ++ toString status
          ++ " trying to fetch user information")), [userRequest sess.AccessToken]) ∧
    ∃ pre post, p.providerName ++ " responded with a " ++ toString status
        ++ " trying to fetch user information" = pre ++ toString status ++ post := by
  refine ⟨by simp [Provider.FetchUser, Provider.Name, h, hs], ?_⟩
  exact ⟨p.providerName ++ " responded with a ", " trying to fetch user information",
    by simp [String.append_assoc]⟩

/-- Witness for C4 at a concrete provider, session and a 404 status. -/
theorem fetchUser_non200_witness :
    (Session.mk "u" "tok" "ref" 7).AccessToken ≠ "" ∧ (404 : Nat) ≠ 200 ∧
    ((New "ck" "sec" "/cb" []).FetchUser
        (GothSession.forge (Session.mk "u" "tok" "ref" 7))
        (DoResult.response 404 (ReadResult.readError "eof")) =
      (FetchOutcome.returned
        { UserID := "", NickName := "", FirstName := "", LastName := ""
          Email := "", Location := "", AvatarURL := ""
          AccessToken := "tok", RefreshToken := "ref", ExpiresAt := 7
          Provider := "autodeskforge" }
        (some "autodeskforge responded with a 404 trying to fetch user information"),
        [userRequest "tok"]) ∧
      ∃ pre post, "autodeskforge" ++ " responded with a " ++ toString (404 : Nat)
          ++ " trying to fetch user information" = pre ++ toString (404 : Nat) ++ post) :=
  ⟨by decide, by decide,
   fetchUser_non200 (New "ck" "sec" "/cb" []) (Session.mk "u" "tok" "ref" 7) 404
     (ReadResult.readError "eof") (by decide) (by decide)⟩

/-- C5: `BeginAuth` always returns a nil error and a session with only
the authorization URL populated (token fields empty, expiry zero), and
issues no HTTP request; for every provider built by `New`, that URL
starts with (hence contains) the fixed authorization base endpoint. -/
theorem beginAuth_spec (ck sec cb : String) (scopes : List String) (state : String) :
    (∀ q : Provider, q.BeginAuth state =
      ((⟨q.config.AuthCodeURL state, "", "", 0⟩, none), [])) ∧
    ∃ rest, ((New ck sec cb scopes).BeginAuth state).1.1.AuthURL = baseAuthURL ++ rest := by
  refine ⟨fun q => rfl, ?_⟩
  unfold Provider.BeginAuth Config.AuthCodeURL New newConfig
  by_cases h : scopes.length > 0 <;>
    simp only [h, if_true, if_false, String.append_assoc] <;>
    exact ⟨_, rfl⟩

/-- C6: `New` is a total function (construction cannot fail) whose result
exposes exactly the given client key, secret and callback URL, under the
provider name "autodeskforge". -/
theorem New_fields (ck sec cb : String) (scopes : List String) :
    (New ck sec cb scopes).ClientKey = ck ∧
    (New ck sec cb scopes).Secret = sec ∧
    (New ck sec cb scopes).CallbackURL = cb ∧
    (New ck sec cb scopes).Name = "autodeskforge" :=
  ⟨rfl, rfl, rfl, rfl⟩

/-- C7: `UnmarshalSession` on the persisted text from the test suite
yields exactly that session with no error (and a text carrying all four
persisted keys restores all four fields, the expiry included); the set
of accepted inputs is exactly the grammar `WellFormedSessionText` of the
persisted form, so every malformed input — every text the grammar does
not generate — fails with a parse error. -/
theorem unmarshalSession_spec :
    (New "ck" "sec" "/foo" []).UnmarshalSession
        "\x7b\"AuthURL\":\"https://developer.api.autodesk.com/authentication/v1/authorize\",\"AccessToken\":\"1234567890\"\x7d" =
      Except.ok
        ⟨"https://developer.api.autodesk.com/authentication/v1/authorize", "1234567890", "", 0⟩ ∧
    (New "ck" "sec" "/foo" []).UnmarshalSession
        "\x7b\"AuthURL\":\"u\",\"AccessToken\":\"a\",\"RefreshToken\":\"r\",\"ExpiresAt\":\"1700000000\"\x7d" =
      Except.ok ⟨"u", "a", "r", 1700000000⟩ ∧
    (∀ (p : Provider) (s : String),
      (∃ sess, p.UnmarshalSession s = Except.ok sess) ↔ WellFormedSessionText s) ∧
    (∀ (p : Provider) (s : String), ¬ WellFormedSessionText s →
      ∃ e, p.UnmarshalSession s = Except.error e) := by
  refine ⟨rfl, rfl, unmarshal_ok_iff, fun p s hnot => ?_⟩
  cases h : p.UnmarshalSession s with
  | error e => exact ⟨e, rfl⟩
  | ok sess => exact absurd ((unmarshal_ok_iff p s).mp ⟨sess, h⟩) hnot

/-- Witness for C7: a concrete malformed input, shown not well-formed,
is rejected with a parse error. -/
theorem unmarshalSession_spec_witness :
    ¬ WellFormedSessionText "not json" ∧
    ∃ e, (New "ck" "sec" "/foo" []).UnmarshalSession "not json" = Except.error e := by
  have hnwf : ¬ WellFormedSessionText "not json" := by
    rintro ⟨rest, hws, -⟩
    have h1 : skipWs "not json".toList = '{' :: rest :=
      skipWs_eq_of_ws hws (headNotWs_cons (by decide))
    have h2 : skipWs "not json".toList =
        'n' :: 'o' :: 't' :: ' ' :: 'j' :: 's' :: 'o' :: 'n' :: [] := rfl
    rw [h2] at h1
    exact absurd h1 (by simp)
  exact ⟨hnwf, unmarshalSession_spec.2.2.2 (New "ck" "sec" "/foo" []) "not json" hnwf⟩

/-- C8: `RefreshTokenAvailable` returns true for every provider,
including after any `SetName` rebinding. -/
theorem refreshTokenAvailable_always_true (p : Provider) (name : String) :
    p.RefreshTokenAvailable = true ∧ (p.SetName name).RefreshTokenAvailable = true :=
  ⟨rfl, rfl⟩

/-- C9: `FetchUser` on a session of a different provider's dynamic type
panics at the type assertion before any precondition check or HTTP
request, whatever the transport would have answered. -/
theorem fetchUser_foreign_session_panics (p : Provider) (o : String) (d : DoResult) :
    p.FetchUser (GothSession.other o) d =
      (FetchOutcome.panicked
        "interface conversion: goth.Session is not *autodeskforge.Session", []) :=
  rfl

/-- C10: whenever `FetchUser` returns an error, the user record returned
alongside it still carries the session's access token, refresh token and
expiry, and the provider's current name. -/
theorem fetchUser_error_preserves_session (p : Provider) (sess : Session) (d : DoResult)
    (u : User) (e : String) (reqs : List HttpRequest)
    (h : p.FetchUser (GothSession.forge sess) d = (FetchOutcome.returned u (some e), reqs)) :
    u.AccessToken = sess.AccessToken ∧ u.RefreshToken = sess.RefreshToken ∧
    u.ExpiresAt = sess.ExpiresAt ∧ u.Provider = p.providerName := by
  unfold Provider.FetchUser at h
  by_cases htok : sess.AccessToken = ""
  · simp [htok, Provider.Name] at h
    obtain ⟨⟨hu, -⟩, -⟩ := h
    subst hu
    exact ⟨htok.symm, rfl, rfl, rfl⟩
  · cases d with
    | transportError te =>
      simp [htok, Provider.Name] at h
      obtain ⟨⟨hu, -⟩, -⟩ := h
      subst hu
      exact ⟨rfl, rfl, rfl, rfl⟩
    | response status rr =>
      by_cases hst : status = 200
      · cases rr with
        | readError re =>
          simp [htok, hst, Provider.Name] at h
          obtain ⟨⟨hu, -⟩, -⟩ := h
          subst hu
          exact ⟨rfl, rfl, rfl, rfl⟩
        | decodeError de =>
          simp [htok, hst, Provider.Name] at h
          obtain ⟨⟨hu, -⟩, -⟩ := h
          subst hu
          exact ⟨rfl, rfl, rfl, rfl⟩
        | decoded prof =>
          simp [htok, hst, Provider.Name] at h
      · simp [htok, hst, Provider.Name] at h
        obtain ⟨⟨hu, -⟩, -⟩ := h
        subst hu
        exact ⟨rfl, rfl, rfl, rfl⟩

/-- Witness for C10 at a concrete provider, session and failing
transport. -/
theorem fetchUser_error_preserves_session_witness :
    (New "ck" "sec" "/cb" []).FetchUser
        (GothSession.forge (Session.mk "u" "tok" "ref" 7))
        (DoResult.response 500 (ReadResult.readError "eof")) =
      (FetchOutcome.returned
        { UserID := "", NickName := "", FirstName := "", LastName := ""
          Email := "", Location := "", AvatarURL := ""
          AccessToken := "tok", RefreshToken := "ref", ExpiresAt := 7
          Provider := "autodeskforge" }
        (some "autodeskforge responded with a 500 trying to fetch user information"),
        [userRequest "tok"]) ∧
    ("tok" = (Session.mk "u" "tok" "ref" 7).AccessToken ∧
     "ref" = (Session.mk "u" "tok" "ref" 7).RefreshToken ∧
     (7 : Int) = (Session.mk "u" "tok" "ref" 7).ExpiresAt ∧
     "autodeskforge" = (New "ck" "sec" "/cb" []).providerName) :=
  ⟨by decide,
   fetchUser_error_preserves_session (New "ck" "sec" "/cb" []) (Session.mk "u" "tok" "ref" 7)
     (DoResult.response 500 (ReadResult.readError "eof"))
     { UserID := "", NickName := "", FirstName := "", LastName := ""
       Email := "", Location := "", AvatarURL := ""
       AccessToken := "tok", RefreshToken := "ref", ExpiresAt := 7
       Provider := "autodeskforge" }
     "autodeskforge responded with a 500 trying to fetch user information"
     [userRequest "tok"] (by decide)⟩
